import Mathlib

/-!
# Verification of the opexebo spatial-occupancy components

A shallow embedding of `opexebo/general/accumulatespatial.py` and
`opexebo/analysis/spatialOccupancy.py`, with theorems checking the
natural-language specification against the code.

Modelling conventions:
* real-valued numpy data is modelled over `ℚ` (the inputs in scope are finite
  reals; `ℚ` keeps every arithmetic comparison exact and decidable);
* a numpy array is a `List ℚ` (1-d) or `List (List ℚ)` (row-major 2-d);
* functions that can raise return `Except PyError _`, one constructor per
  Python exception class raised by the source;
* `np.sqrt(d) ≤ r` is embedded as `0 ≤ r ∧ d ≤ r ^ 2`, which is equivalent
  for the nonnegative `d` produced by `X**2 + Y**2`;
* the keyword-argument dictionary is an explicit structure whose defaults
  mirror `opexebo.defaults` (that module is not part of the sources given,
  so its constants are modelled from the spec, see `shapes_square` etc.).
-/

set_option linter.unusedVariables false
set_option allowUnsafeReducibility true

attribute [local semireducible] Rat.add Rat.mul Rat.sub Rat.inv Rat.ofScientific

deriving instance DecidableEq for Except

/-- The Python exception classes raised by the two source functions. -/
inductive PyError
  | valueError (msg : String)
  | keyError (msg : String)
  | notImplementedError (msg : String)
  | indexError (msg : String)
  | zeroDivisionError (msg : String)
  | unboundLocalError (msg : String)
  deriving DecidableEq, Repr

/-- `arena_size`: a Python scalar (`float`/`int`) or a pair
(`tuple`/`list`/`np.ndarray` of two elements). -/
inductive ArenaSize
  | scalar (s : ℚ)
  | pair (a b : ℚ)
  deriving DecidableEq, Repr

/-- The Python value given for the `limits` keyword.  The constructors record
the Python type, because `accumulatespatial` both type-checks the value
(`type(limits) in (tuple, list, np.ndarray, type(None))`) and compares it
against `None` with `==`, which behaves differently for `np.ndarray`. -/
inductive PyLimits
  | pynone
  | pytuple (xs : List ℚ)
  | pylist (xs : List ℚ)
  | pyndarray (xs : List ℚ)
  | pyfloat (q : ℚ)
  deriving DecidableEq, Repr

/-- `type(limits) in (tuple, list, np.ndarray, type(None))`. -/
def limitsTypeOk : PyLimits → Bool
  | .pyfloat _ => false
  | _ => true

/-- The elements of an array-like `limits` value. -/
def limitsElems : PyLimits → List ℚ
  | .pytuple xs => xs
  | .pylist xs => xs
  | .pyndarray xs => xs
  | _ => []

/-- The Python expression `limits == None` used as an `if` condition.
For `None` it is `True`; for a `tuple`/`list` it is `False`; for an
`np.ndarray` the `==` is element-wise, and truth-testing the resulting array
raises `ValueError` when it has more than one element. -/
def limitsIsNone : PyLimits → Except PyError Bool
  | .pynone => .ok true
  | .pyndarray xs =>
      if 2 ≤ xs.length then
        .error (.valueError "The truth value of an array with more than one element is ambiguous. Use a.any() or a.all()")
      else
        .ok false
  | _ => .ok false

/-- A 1-d or 2-d numpy array (used for the `speed` argument, whose `ndim`
the source inspects). -/
inductive NpArr
  | d1 (xs : List ℚ)
  | d2 (xss : List (List ℚ))
  deriving DecidableEq, Repr

def NpArr.ndim : NpArr → ℕ
  | .d1 _ => 1
  | .d2 _ => 2

def NpArr.size : NpArr → ℕ
  | .d1 xs => xs.length
  | .d2 xss => (xss.map List.length).sum

def NpArr.flat1 : NpArr → List ℚ
  | .d1 xs => xs
  | .d2 xss => xss.flatten

/-- The keyword arguments shared by `spatial_occupancy` and
`accumulatespatial` (both read the same `kwargs` dictionary).  Defaults are
the ones in `opexebo.defaults`, modelled from the spec:
`bin_width` 2.5, `speed_cutoff` 0, arena shape defaulting to rectangular. -/
structure Kwargs where
  arena_shape : String := "rectangular"
  arena_size : Option ArenaSize := none
  bin_width : ℚ := 5 / 2
  speed_cutoff : ℚ := 0
  limits : PyLimits := .pynone
  deriving DecidableEq, Repr

/-- Modelled from the spec: `opexebo.defaults.shapes_square`, the recognized
square/rectangular arena-shape vocabulary (spec section 6). -/
def shapes_square : List String := ["square", "rectangle", "rect", "rectangular", "s", "r"]

/-- Modelled from the spec: `opexebo.defaults.shapes_circle` (spec section 6). -/
def shapes_circle : List String := ["circle", "circular", "circ", "c"]

/-- Modelled from the spec: `opexebo.defaults.shapes_linear` (spec section 6). -/
def shapes_linear : List String := ["linear", "line", "l"]

/-- `np.min` of a 1-d array: raises on an empty array. -/
def npMin : List ℚ → Except PyError ℚ
  | [] => .error (.valueError "zero-size array to reduction operation minimum which has no identity")
  | h :: t => .ok (t.foldl min h)

/-- `np.max` of a 1-d array: raises on an empty array. -/
def npMax : List ℚ → Except PyError ℚ
  | [] => .error (.valueError "zero-size array to reduction operation maximum which has no identity")
  | h :: t => .ok (t.foldl max h)

/-- `np.diff`: differences of consecutive elements. -/
def npDiff : List ℚ → List ℚ
  | a :: b :: rest => (b - a) :: npDiff (b :: rest)
  | _ => []

/-- numpy's normalisation of a histogram `range`: `max < min` raises, an
empty range `max = min` is widened by 0.5 on each side. -/
def fixRange (lo hi : ℚ) : Except PyError (ℚ × ℚ) :=
  if hi < lo then .error (.valueError "max must be larger than min in range parameter")
  else if lo = hi then .ok (lo - 1 / 2, hi + 1 / 2)
  else .ok (lo, hi)

/-- The bin that `np.histogram` with `n` uniform bins over `[a, b]` assigns
to the value `v`: values outside `[a, b]` are ignored, the last bin is
closed at the top (`v = b` falls in bin `n - 1`), every other bin is
half-open. -/
def binIndex (a b : ℚ) (n : ℕ) (v : ℚ) : Option ℕ :=
  if a ≤ v ∧ v ≤ b then
    if b ≤ v then some (n - 1)
    else some (min (n - 1) (Int.toNat ⌊(v - a) * n / (b - a)⌋))
  else none

/-- The `n + 1` uniform bin edges of `np.histogram` over `[lo, hi]`
(`np.linspace lo hi (n+1)`). -/
def edges1d (lo hi : ℚ) (n : ℕ) : List ℚ :=
  (List.range (n + 1)).map fun i : ℕ => lo + (hi - lo) * i / n

/-- `np.histogram(xs, bins=n, range=(lo, hi))`: bin counts and bin edges. -/
def histogram1d (xs : List ℚ) (n : ℕ) (lo hi : ℚ) : Except PyError (List ℕ × List ℚ) :=
  match fixRange lo hi with
  | .error e => .error e
  | .ok (a, b) =>
      if n = 0 then .error (.valueError "bins must be positive, when an integer")
      else .ok ((List.range n).map fun i => (xs.filter fun v => binIndex a b n v == some i).length,
                edges1d a b n)

/-- An `r × c` matrix given by its entry function. -/
def mkMat (r c : ℕ) (f : ℕ → ℕ → ℕ) : List (List ℕ) :=
  (List.range r).map fun i => (List.range c).map fun j => f i j

/-- `ndarray.transpose()` for a rectangular list-of-rows matrix. -/
def matTranspose (m : List (List ℕ)) : List (List ℕ) :=
  (List.range (m.headD []).length).map fun j => m.map fun row => row.getD j 0

/-- `np.histogram2d(x, y, bins=(nx, ny), range=((xlo,xhi),(ylo,yhi)))`:
the (pre-transposition) count matrix indexed `[x-bin][y-bin]`, plus the two
edge arrays.  Range and bin-count validation follows `np.histogramdd`:
x-axis first, then y-axis. -/
def histogram2d (x y : List ℚ) (nx ny : ℕ) (xlo xhi ylo yhi : ℚ) :
    Except PyError (List (List ℕ) × List ℚ × List ℚ) :=
  match fixRange xlo xhi with
  | .error e => .error e
  | .ok (ax, bx) =>
      if nx = 0 then .error (.valueError "bins must be positive, when an integer")
      else
        match fixRange ylo yhi with
        | .error e => .error e
        | .ok (ay, b2) =>
            if ny = 0 then .error (.valueError "bins must be positive, when an integer")
            else
              .ok (mkMat nx ny (fun ix iy =>
                      ((x.zip y).filter fun p =>
                        binIndex ax bx nx p.1 == some ix && binIndex ay b2 ny p.2 == some iy).length),
                   edges1d ax bx nx, edges1d ay b2 ny)

/-- Modelled from the spec: `opexebo.general.validatekeyword__arena_size`,
the "arena-size validator" collaborator (not among the sources given).  Per
spec section 4.1 it normalizes a scalar vs pair arena size into per-axis
extents and confirms dimensional consistency, raising an invalid-input
error otherwise; `is_2d` reports whether the data is two-dimensional. -/
def validatekeyword__arena_size (as : Option ArenaSize) (dims : ℕ) :
    Except PyError (ℚ × ℚ × Bool) :=
  match as with
  | none => .error (.valueError "arena_size is a required keyword")
  | some (.scalar s) => .ok (s, s, decide (dims = 2))
  | some (.pair a b) =>
      if dims = 2 then .ok (a, b, true)
      else .error (.valueError "arena_size dimensions do not match position dimensions")

/-- The limits used by the 1-d branch of `accumulatespatial`: auto-derived
`[np.nanmin(x), np.nanmax(x)]` when `limits == None`, otherwise the supplied
value, which must have exactly 2 elements. -/
def deriveLimits1d (x : List ℚ) (limits : PyLimits) : Except PyError (ℚ × ℚ) :=
  match limitsIsNone limits with
  | .error e => .error e
  | .ok true =>
      match npMin x with
      | .error e => .error e
      | .ok lo =>
          match npMax x with
          | .error e => .error e
          | .ok hi => .ok (lo, hi)
  | .ok false =>
      let xs := limitsElems limits
      if xs.length ≠ 2 then
        .error (.valueError "You must provide a 2-element limits value for a 1D map")
      else .ok (xs.getD 0 0, xs.getD 1 0)

/-- The limits used by the 2-d branch of `accumulatespatial`: auto-derived
per-axis min/max when `limits == None`, otherwise the supplied
`(x_min, x_max, y_min, y_max)`, which must have exactly 4 elements. -/
def deriveLimits2d (x y : List ℚ) (limits : PyLimits) : Except PyError (ℚ × ℚ × ℚ × ℚ) :=
  match limitsIsNone limits with
  | .error e => .error e
  | .ok true =>
      match npMin x with
      | .error e => .error e
      | .ok xlo =>
          match npMax x with
          | .error e => .error e
          | .ok xhi =>
              match npMin y with
              | .error e => .error e
              | .ok ylo =>
                  match npMax y with
                  | .error e => .error e
                  | .ok yhi => .ok (xlo, xhi, ylo, yhi)
  | .ok false =>
      let xs := limitsElems limits
      if xs.length ≠ 4 then
        .error (.valueError "You must provide a 4-element limits value for a 2D map")
      else .ok (xs.getD 0 0, xs.getD 1 0, xs.getD 2 0, xs.getD 3 0)

/-- The result of `accumulatespatial`: a 1-d histogram with its edge array,
or a (transposed) 2-d histogram with the edge list reordered `[y, x]`. -/
inductive AccResult
  | one (hist : List ℕ) (edges : List ℚ)
  | two (hist : List (List ℕ)) (yedges xedges : List ℚ)
  deriving DecidableEq, Repr

/-- Embedding of `opexebo.general.accumulatespatial` (accumulatespatial.py).
`pos` is the list of per-axis coordinate rows.  In the 2-d branch an
in-range inclusion mask is applied to the coordinates before histogramming;
in the 1-d branch the mask `_in_range_x` is computed but the histogram is
taken over the unfiltered `x` (the source's lines 119-122). -/
def accumulatespatial (pos : List (List ℚ)) (kw : Kwargs) : Except PyError AccResult :=
  let dims := pos.length
  if ¬ (dims = 1 ∨ dims = 2) then
    .error (.valueError "pos should have either 1 or 2 dimensions")
  else if limitsTypeOk kw.limits = false then
    .error (.valueError "You must provide an array-like limits value")
  else
    match validatekeyword__arena_size kw.arena_size dims with
    | .error e => .error e
    | .ok (sx, sy, is_2d) =>
        let nx := Nat.ceil (sx / kw.bin_width)
        let ny := Nat.ceil (sy / kw.bin_width)
        let x := pos.headD []
        if is_2d then
          let y := pos.getD 1 []
          match deriveLimits2d x y kw.limits with
          | .error e => .error e
          | .ok (xlo, xhi, ylo, yhi) =>
              let pairs := (x.zip y).filter fun p =>
                decide (xlo ≤ p.1 ∧ p.1 < xhi) && decide (ylo ≤ p.2 ∧ p.2 < yhi)
              match histogram2d (pairs.map Prod.fst) (pairs.map Prod.snd) nx ny xlo xhi ylo yhi with
              | .error e => .error e
              | .ok (hist, xedges, yedges) => .ok (.two (matTranspose hist) yedges xedges)
        else
          match deriveLimits1d x kw.limits with
          | .error e => .error e
          | .ok (lo, hi) =>
              let _in_range_x := x.filter fun v => decide (lo ≤ v ∧ v < hi)
              match histogram1d x nx lo hi with
              | .error e => .error e
              | .ok (hist, edges) => .ok (.one hist edges)

/-- Python's `str.lower()` (character-wise; the shape tags in scope are
ASCII).  Defined over the character list so that it evaluates inside the
kernel. -/
def pyLower (s : String) : String := ⟨s.data.map Char.toLower⟩

/-- Total number of entries of a 2-d array (`ndarray.size`). -/
def matSize (m : List (List ℕ)) : ℕ :=
  (m.map List.length).sum

/-- `np.count_nonzero` of a 2-d array. -/
def matCountNonzero (m : List (List ℕ)) : ℕ :=
  (m.map fun row => (row.filter fun c => c ≠ 0).length).sum

/-- Sum of all entries of a 2-d count array. -/
def matSum (m : List (List ℕ)) : ℕ :=
  (m.map List.sum).sum

/-- Boolean-mask indexing `xs[good]` of numpy. -/
def boolMaskFilter (xs : List ℚ) (good : List Bool) : List ℚ :=
  ((xs.zip good).filter fun p => p.2).map fun p => p.1

/-- The coverage computation of `spatial_occupancy` (spatialOccupancy.py
lines 139-163).  `occmap` is the frame-count histogram (`occupancy_map` in
the source: nonzero exactly where the animal has been), `ye`/`xe` the edge
arrays as returned by the accumulator (`bin_edges[0]`/`bin_edges[1]`).
In the circle branch `min(1.0, k / np.sum(in_field))` runs on a Python
`int` divided by a numpy integer, so division by a zero `in_field` count
yields `inf`/`nan` rather than raising, and `min` then returns `1.0`;
the square branch divides two Python `int`s and raises on a zero size. -/
def occCoverage (kw : Kwargs) (occmap : List (List ℕ)) (ye xe : List ℚ) : Except PyError ℚ :=
  if pyLower kw.arena_shape ∈ shapes_square then
    if matSize occmap = 0 then .error (.zeroDivisionError "division by zero")
    else .ok ((matCountNonzero occmap : ℚ) / (matSize occmap : ℚ))
  else if pyLower kw.arena_shape ∈ shapes_circle then
    match kw.arena_size with
    | none => .error (.unboundLocalError "local variable radius referenced before assignment")
    | some as =>
        let radius := match as with
          | .scalar s => s / 2
          | .pair a _ => a / 2
        let x_centres := ye.dropLast.map fun v => v + kw.bin_width / 2
        let y_centres := xe.dropLast.map fun v => v + kw.bin_width / 2
        let in_field_count :=
          (y_centres.map fun yc =>
            (x_centres.filter fun xc => decide (0 ≤ radius ∧ xc ^ 2 + yc ^ 2 ≤ radius ^ 2)).length).sum
        let k := matCountNonzero occmap
        if in_field_count = 0 then .ok 1
        else .ok (min 1 ((k : ℚ) / (in_field_count : ℚ)))
  else if pyLower kw.arena_shape ∈ shapes_linear then
    .error (.notImplementedError "Spatial Occupancy does not currently support linear arenas")
  else
    .error (.notImplementedError ("Arena shape " ++ kw.arena_shape ++ " not understood"))

/-- Everything `spatial_occupancy` does before the coverage computation
(spatialOccupancy.py lines 85-131): validation, speed filtering, the call
to the accumulator, and the frame-duration inference.  Returns the
frame-count histogram, the two edge arrays, and `frame_duration`.
The row access `position[1,:]` is performed for every dimensionality that
passes validation, so a 1-row position array raises `IndexError` here. -/
def occPipeline (time : List ℚ) (position : List (List ℚ)) (speed : NpArr) (kw : Kwargs) :
    Except PyError (List (List ℕ) × List ℚ × List ℚ × ℚ) :=
  let dimensionality := position.length
  let num_samples := (position.headD []).length
  if ¬ (dimensionality = 1 ∨ dimensionality = 2) then
    .error (.valueError "Positions array has the wrong number of columns")
  else if speed.ndim ≠ 1 then
    .error (.valueError "Speed array has the wrong number of columns")
  else if speed.size ≠ num_samples then
    .error (.valueError "Speed array does not have the same number of samples as Positions")
  else if kw.arena_size.isNone then
    .error (.keyError "Arena dimensions not provided. Please provide dimensions using keyword arena_size.")
  else
    let good := speed.flat1.map fun s => decide (kw.speed_cutoff < s)
    let x := boolMaskFilter (position.headD []) good
    match position.get? 1 with
    | none => .error (.indexError "index 1 is out of bounds for axis 0 with size 1")
    | some row1 =>
        let y := boolMaskFilter row1 good
        match accumulatespatial [x, y] kw with
        | .error e => .error e
        | .ok res =>
            match npMin (npDiff time) with
            | .error e => .error e
            | .ok frame_duration =>
                match res with
                | .one _ _ => .error (.valueError "unreachable: a two-row input yields a 2d histogram")
                | .two hist ye xe => .ok (hist, ye, xe, frame_duration)

/-- The values returned by `spatial_occupancy`.  The numpy masked array
`masked_map` is modelled as its data (`timeMap`) together with its boolean
`mask`; `counts` is the pre-scaling frame-count histogram the two are
derived from, kept so that properties can refer to it. -/
structure OccOut where
  counts : List (List ℕ)
  timeMap : List (List ℚ)
  mask : List (List Bool)
  coverage : ℚ
  yedges : List ℚ
  xedges : List ℚ
  deriving DecidableEq, Repr

/-- Embedding of `opexebo.analysis.spatial_occupancy` (spatialOccupancy.py).
`occupancy_map_time = occupancy_map * frame_duration` and
`masked_map = np.ma.masked_where(occupancy_map < 0.001, occupancy_map_time)`:
note the mask condition reads the frame-count map, not the time-scaled one. -/
def spatial_occupancy (time : List ℚ) (position : List (List ℚ)) (speed : NpArr) (kw : Kwargs) :
    Except PyError OccOut :=
  match occPipeline time position speed kw with
  | .error e => .error e
  | .ok (hist, ye, xe, frame_duration) =>
      match occCoverage kw hist ye xe with
      | .error e => .error e
      | .ok coverage =>
          .ok { counts := hist
                timeMap := hist.map fun row => row.map (fun c : ℕ => (c : ℚ) * frame_duration)
                mask := hist.map fun row => row.map (fun c : ℕ => decide ((c : ℚ) < 1 / 1000))
                coverage := coverage
                yedges := ye
                xedges := xe }

/-- Follows the spec wording (section 4.2 step 4): "the minimum positive
timestamp delta across the full (unfiltered) time series". -/
def specMinPositiveDelta (time : List ℚ) : Option ℚ :=
  ((npDiff time).filter fun d => 0 < d).min?

/-- Follows the claim wording (C3): the 2-d histogram "computed over the
unfiltered coordinate arrays using the declared range", transposed the way
the accumulator transposes its histogram. -/
def specUnfilteredHist2d (x y : List ℚ) (nx ny : ℕ) (xlo xhi ylo yhi : ℚ) : List (List ℕ) :=
  matTranspose (mkMat nx ny fun ix iy =>
    ((x.zip y).filter fun p =>
      binIndex xlo xhi nx p.1 == some ix && binIndex ylo yhi ny p.2 == some iy).length)

/-- `True` exactly when an `Except` result is a raised `NotImplementedError`. -/
def isNotImplementedError : Except PyError α → Bool
  | .error (.notImplementedError _) => true
  | _ => false

/-- Claim C1: the spec says a 1-row (dimensionality 1) position array makes
`spatial_occupancy` succeed with a 1-d map, while dimensionality 0 or 3
raises the invalid-shape error.  The dimensionality 0 and 3 parts hold, but
a 1-row array passes validation and then crashes with `IndexError` at
`position[1,:]`, contradicting the function docstring, which promises
support for `[x]` input.  This theorem evaluates the embedded code at the
failing input and at dimensionality 0 and 3. -/
theorem C1_spatial_occupancy_1d_raises_index_error :
    spatial_occupancy [0, 1] [[1, 2]] (NpArr.d1 [1, 1]) { arena_size := some (.scalar 10) }
      = .error (.indexError "index 1 is out of bounds for axis 0 with size 1") ∧
    spatial_occupancy [0, 1] [] (NpArr.d1 []) { arena_size := some (.scalar 10) }
      = .error (.valueError "Positions array has the wrong number of columns") ∧
    spatial_occupancy [0, 1] [[1], [1], [1]] (NpArr.d1 [1]) { arena_size := some (.scalar 10) }
      = .error (.valueError "Positions array has the wrong number of columns") := by
  refine ⟨by decide, by decide, by decide⟩

/-- Claim C2, counterexample: with frame duration 1/10000 the bin (0,0) is
visited once, so its time-scaled value 1/10000 is below 0.001, yet its mask
entry is `false` — the source masks on the raw frame count, not on the
time-scaled value, so the claim as stated is false. -/
theorem C2_counterexample_mask_ignores_time_scaling :
    (spatial_occupancy [0, 1/10000, 2/10000] [[0, 1, 2], [0, 1, 2]] (NpArr.d1 [1, 1, 1])
        { arena_size := some (.scalar 5) }).toOption.map
      (fun out => ((out.timeMap.getD 0 []).getD 0 0, (out.mask.getD 0 []).getD 0 true))
      = some (1/10000, false) ∧ ((1 : ℚ)/10000 < 1/1000) := by
  refine ⟨by decide, by decide⟩

/-- Claim C3, counterexample: a 2-d input with one observation exactly at
the upper y limit.  The in-range mask drops it and the source histograms
the filtered subset, so the returned histogram is all zero; the histogram
of the unfiltered coordinate arrays over the declared range would count it
in the last bin.  The claim is therefore false for the 2-d case. -/
theorem C3_counterexample_2d_histogram_is_filtered :
    accumulatespatial [[5], [10]]
        { arena_size := some (.scalar 10), limits := .pytuple [0, 10, 0, 10] }
      = .ok (.two [[0, 0, 0, 0], [0, 0, 0, 0], [0, 0, 0, 0], [0, 0, 0, 0]]
          [0, 5/2, 5, 15/2, 10] [0, 5/2, 5, 15/2, 10]) ∧
    specUnfilteredHist2d [5] [10] 4 4 0 10 0 10
      = [[0, 0, 0, 0], [0, 0, 0, 0], [0, 0, 0, 0], [0, 0, 1, 0]] ∧
    ([[0, 0, 0, 0], [0, 0, 0, 0], [0, 0, 0, 0], [0, 0, 0, 0]] : List (List ℕ))
      ≠ [[0, 0, 0, 0], [0, 0, 0, 0], [0, 0, 0, 0], [0, 0, 1, 0]] := by
  refine ⟨by decide, by decide, by decide⟩

/-- Claim C4, counterexample: with the duplicated timestamp series
`[0, 1, 1, 2]` the minimum positive delta is 1, but the source multiplies
by `np.min(np.diff(time)) = 0`: bin (0,0) holds 2 frames yet its time value
is `0 ≠ 2 * 1`, so the claim as stated is false. -/
theorem C4_counterexample_min_delta_not_positive :
    (spatial_occupancy [0, 1, 1, 2] [[0, 1, 2, 3], [0, 1, 2, 3]] (NpArr.d1 [1, 1, 1, 1])
        { arena_size := some (.scalar 5) }).toOption.map
      (fun out => ((out.counts.getD 0 []).getD 0 0, (out.timeMap.getD 0 []).getD 0 1))
      = some (2, 0) ∧
    specMinPositiveDelta [0, 1, 1, 2] = some 1 ∧ (0 : ℚ) ≠ (2 : ℚ) * 1 := by
  refine ⟨by decide, by decide, by decide⟩

/-- Claim C6, counterexample: with `arena_shape = "linear"` but `arena_size`
missing, `spatial_occupancy` raises the missing-configuration `KeyError`,
not a `NotImplementedError` — so with a linear tag the not-implemented
error is not raised unconditionally regardless of the other inputs. -/
theorem C6_counterexample_linear_not_unconditional :
    spatial_occupancy [0, 1] [[0, 1], [0, 1]] (NpArr.d1 [1, 1]) { arena_shape := "linear" }
      = .error (.keyError "Arena dimensions not provided. Please provide dimensions using keyword arena_size.") ∧
    isNotImplementedError
      (spatial_occupancy [0, 1] [[0, 1], [0, 1]] (NpArr.d1 [1, 1]) { arena_shape := "linear" })
      = false := by
  refine ⟨by decide, by decide⟩

/-- Claim C9, counterexample: in the 1-d case an observation exactly at the
declared upper limit is counted (in the last bin) by the returned
histogram, although it does not lie in the half-open interval `[min, max)` —
so lower-inclusive/upper-exclusive binning does not hold in the 1-d case. -/
theorem C9_counterexample_1d_upper_limit_included :
    accumulatespatial [[10]] { arena_size := some (.scalar 10), limits := .pytuple [0, 10] }
      = .ok (.one [0, 0, 0, 1] [0, 5/2, 5, 15/2, 10]) ∧
    ([0, 0, 0, 1] : List ℕ).sum = 1 ∧
    ([10] : List ℚ).filter (fun v => decide (0 ≤ v ∧ v < 10)) = [] := by
  refine ⟨by decide, by decide, by decide⟩

theorem spatial_occupancy_ok_elim {t : List ℚ} {p : List (List ℚ)} {s : NpArr} {kw : Kwargs}
    {out : OccOut} (h : spatial_occupancy t p s kw = .ok out) :
    ∃ hist ye xe fd,
      occPipeline t p s kw = .ok (hist, ye, xe, fd) ∧
      occCoverage kw hist ye xe = .ok out.coverage ∧
      out.counts = hist ∧
      out.timeMap = hist.map (fun row => row.map (fun c : ℕ => (c : ℚ) * fd)) ∧
      out.mask = hist.map (fun row => row.map (fun c : ℕ => decide ((c : ℚ) < 1/1000))) ∧
      out.yedges = ye ∧ out.xedges = xe := by
  unfold spatial_occupancy at h
  split at h
  · exact absurd h (by simp)
  · rename_i hist ye xe fd hpipe
    split at h
    · exact absurd h (by simp)
    · rename_i cov hcov
      injection h with h
      subst h
      exact ⟨hist, ye, xe, fd, hpipe, hcov, rfl, rfl, rfl, rfl, rfl⟩

theorem occPipeline_ok_elim {t : List ℚ} {p : List (List ℚ)} {s : NpArr} {kw : Kwargs}
    {hist : List (List ℕ)} {ye xe : List ℚ} {fd : ℚ}
    (h : occPipeline t p s kw = .ok (hist, ye, xe, fd)) :
    npMin (npDiff t) = .ok fd := by
  simp only [occPipeline] at h
  repeat' split at h
  all_goals simp_all

theorem matCountNonzero_le_matSize (m : List (List ℕ)) : matCountNonzero m ≤ matSize m := by
  unfold matCountNonzero matSize
  apply List.sum_le_sum
  intro row hrow
  exact List.length_filter_le _ _

theorem occCoverage_ok_bounds {kw : Kwargs} {occmap : List (List ℕ)} {ye xe : List ℚ} {c : ℚ}
    (h : occCoverage kw occmap ye xe = .ok c) : 0 ≤ c ∧ c ≤ 1 := by
  unfold occCoverage at h
  split at h
  · split at h
    · exact Except.noConfusion h
    · rename_i hsz
      injection h with h
      subst h
      refine ⟨by positivity, ?_⟩
      rw [div_le_one (by exact_mod_cast Nat.pos_of_ne_zero hsz)]
      exact_mod_cast matCountNonzero_le_matSize occmap
  · split at h
    · split at h
      · exact Except.noConfusion h
      · dsimp only at h
        split at h
        · injection h with h
          subst h
          norm_num
        · injection h with h
          subst h
          refine ⟨le_min (by norm_num) (by positivity), min_le_left _ _⟩
    · split at h
      · exact Except.noConfusion h
      · exact Except.noConfusion h

/-- Claim C5: whenever `spatial_occupancy` returns (its only successful
branches are the square/rectangle and circle shape vocabularies), the
returned coverage lies in the closed interval `[0, 1]`. -/
theorem C5_coverage_in_unit_interval :
    ∀ (t : List ℚ) (p : List (List ℚ)) (s : NpArr) (kw : Kwargs) (out : OccOut),
      spatial_occupancy t p s kw = .ok out → 0 ≤ out.coverage ∧ out.coverage ≤ 1 := by
  intro t p s kw out h
  obtain ⟨hist, ye, xe, fd, hpipe, hcov, hrest⟩ := spatial_occupancy_ok_elim h
  exact occCoverage_ok_bounds hcov

/-- Claim C5, witness: a concrete successful run, evaluated by the kernel,
fed through the theorem. -/
theorem C5_coverage_in_unit_interval_witness :
    spatial_occupancy [0, 1, 2] [[0, 1, 2], [0, 1, 2]] (NpArr.d1 [1, 1, 1])
        { arena_size := some (.scalar 5), arena_shape := "circle" }
      = .ok { counts := [[1, 0], [0, 1]], timeMap := [[1, 0], [0, 1]],
              mask := [[false, true], [true, false]], coverage := 1,
              yedges := [0, 1, 2], xedges := [0, 1, 2] } ∧
    (0 : ℚ) ≤ 1 ∧ (1 : ℚ) ≤ 1 := by
  refine ⟨by decide, ?_⟩
  exact C5_coverage_in_unit_interval [0, 1, 2] [[0, 1, 2], [0, 1, 2]] (NpArr.d1 [1, 1, 1])
    { arena_size := some (.scalar 5), arena_shape := "circle" }
    { counts := [[1, 0], [0, 1]], timeMap := [[1, 0], [0, 1]],
      mask := [[false, true], [true, false]], coverage := 1,
      yedges := [0, 1, 2], xedges := [0, 1, 2] } (by decide)

theorem count_lt_milli_iff (c : ℕ) : ((c : ℚ) < 1 / 1000) ↔ c = 0 := by
  constructor
  · intro h
    by_contra hc
    have h1 : (1 : ℚ) ≤ (c : ℚ) := by exact_mod_cast Nat.one_le_iff_ne_zero.mpr hc
    linarith
  · rintro rfl
    norm_num

/-- Claim C2, amended: the mask is true exactly at bins whose raw frame
count is below 0.001 — that is, bins with zero visits — not at bins whose
time-scaled value is below 0.001 (the source's
`masked_where(occupancy_map < 0.001, occupancy_map_time)` reads the
unscaled count map). -/
theorem C2_mask_true_iff_unvisited :
    ∀ (t : List ℚ) (p : List (List ℚ)) (s : NpArr) (kw : Kwargs) (out : OccOut),
      spatial_occupancy t p s kw = .ok out →
      out.mask = out.counts.map fun row => row.map (fun c : ℕ => decide (c = 0)) := by
  intro t p s kw out h
  obtain ⟨hist, ye, xe, fd, hpipe, hcov, hcounts, htm, hmask, hrest⟩ := spatial_occupancy_ok_elim h
  rw [hmask, hcounts]
  refine List.map_congr_left fun row hrow => List.map_congr_left fun c hc => ?_
  exact decide_eq_decide.mpr (count_lt_milli_iff c)

/-- Claim C2, amended, witness. -/
theorem C2_mask_true_iff_unvisited_witness :
    spatial_occupancy [0, 1, 2] [[0, 1, 2], [0, 1, 2]] (NpArr.d1 [1, 1, 1])
        { arena_size := some (.scalar 5) }
      = .ok { counts := [[1, 0], [0, 1]], timeMap := [[1, 0], [0, 1]],
              mask := [[false, true], [true, false]], coverage := 1/2,
              yedges := [0, 1, 2], xedges := [0, 1, 2] } ∧
    ([[false, true], [true, false]] : List (List Bool))
      = [[1, 0], [0, 1]].map fun row => row.map (fun c : ℕ => decide (c = 0)) := by
  refine ⟨by decide, ?_⟩
  exact C2_mask_true_iff_unvisited [0, 1, 2] [[0, 1, 2], [0, 1, 2]] (NpArr.d1 [1, 1, 1])
    { arena_size := some (.scalar 5) }
    { counts := [[1, 0], [0, 1]], timeMap := [[1, 0], [0, 1]],
      mask := [[false, true], [true, false]], coverage := 1/2,
      yedges := [0, 1, 2], xedges := [0, 1, 2] } (by decide)

theorem npDiff_pos_of_chain :
    ∀ {t : List ℚ}, List.Chain' (· < ·) t → ∀ d ∈ npDiff t, 0 < d
  | [], _, d, hd => by simp [npDiff] at hd
  | [a], _, d, hd => by simp [npDiff] at hd
  | a :: b :: rest, hc, d, hd => by
      rw [npDiff] at hd
      rcases List.mem_cons.mp hd with rfl | hmem
      · have hab := (List.chain'_cons.mp hc).1
        linarith
      · exact npDiff_pos_of_chain (List.chain'_cons.mp hc).2 d hmem

/-- Claim C4, amended: the frame counts are scaled by
`np.min(np.diff(time))`, the minimum of all consecutive timestamp deltas —
not the minimum positive delta.  The two agree exactly when the time
series is strictly increasing (second conjunct). -/
theorem C4_time_map_scaled_by_min_delta :
    (∀ (t : List ℚ) (p : List (List ℚ)) (s : NpArr) (kw : Kwargs) (out : OccOut) (fd : ℚ),
        spatial_occupancy t p s kw = .ok out →
        npMin (npDiff t) = .ok fd →
        out.timeMap = out.counts.map fun row => row.map (fun c : ℕ => (c : ℚ) * fd)) ∧
    (∀ t : List ℚ, List.Chain' (· < ·) t →
        (npMin (npDiff t)).toOption = specMinPositiveDelta t) := by
  constructor
  · intro t p s kw out fd h hmin
    obtain ⟨hist, ye, xe, fd2, hpipe, hcov, hcounts, htm, hrest⟩ := spatial_occupancy_ok_elim h
    have hmin2 := occPipeline_ok_elim hpipe
    rw [hmin] at hmin2
    injection hmin2 with hfd
    rw [htm, hcounts, hfd]
  · intro t hc
    have hfilter : (npDiff t).filter (fun d => decide (0 < d)) = npDiff t :=
      List.filter_eq_self.mpr fun d hd => decide_eq_true (npDiff_pos_of_chain hc d hd)
    unfold specMinPositiveDelta
    rw [hfilter]
    cases npDiff t with
    | nil => rfl
    | cons h0 t0 => rfl

/-- Claim C4, amended, witness. -/
theorem C4_time_map_scaled_by_min_delta_witness :
    spatial_occupancy [0, 1, 2] [[0, 1, 2], [0, 1, 2]] (NpArr.d1 [1, 1, 1])
        { arena_size := some (.scalar 5) }
      = .ok { counts := [[1, 0], [0, 1]], timeMap := [[1, 0], [0, 1]],
              mask := [[false, true], [true, false]], coverage := 1/2,
              yedges := [0, 1, 2], xedges := [0, 1, 2] } ∧
    npMin (npDiff [0, 1, 2]) = .ok 1 ∧
    ([[1, 0], [0, 1]] : List (List ℚ))
      = ([[1, 0], [0, 1]] : List (List ℕ)).map (fun row => row.map (fun c : ℕ => (c : ℚ) * 1)) ∧
    (npMin (npDiff [0, 1, 2])).toOption = specMinPositiveDelta [0, 1, 2] := by
  refine ⟨by decide, by decide, ?_, ?_⟩
  · exact C4_time_map_scaled_by_min_delta.1 [0, 1, 2] [[0, 1, 2], [0, 1, 2]] (NpArr.d1 [1, 1, 1])
      { arena_size := some (.scalar 5) }
      { counts := [[1, 0], [0, 1]], timeMap := [[1, 0], [0, 1]],
        mask := [[false, true], [true, false]], coverage := 1/2,
        yedges := [0, 1, 2], xedges := [0, 1, 2] } 1 (by decide) (by decide)
  · exact C4_time_map_scaled_by_min_delta.2 [0, 1, 2]
      (by norm_num [List.chain'_cons])

theorem shapes_linear_not_square_circle {x : String} (hs : x ∈ shapes_linear) :
    x ∉ shapes_square ∧ x ∉ shapes_circle := by
  simp only [shapes_linear, List.mem_cons, List.not_mem_nil, or_false] at hs
  rcases hs with rfl | rfl | rfl <;> exact ⟨by decide, by decide⟩

theorem occCoverage_linear {kw : Kwargs} {occmap : List (List ℕ)} {ye xe : List ℚ}
    (hs : pyLower kw.arena_shape ∈ shapes_linear) :
    occCoverage kw occmap ye xe
      = .error (.notImplementedError "Spatial Occupancy does not currently support linear arenas") := by
  obtain ⟨h1, h2⟩ := shapes_linear_not_square_circle hs
  unfold occCoverage
  rw [if_neg h1, if_neg h2, if_pos hs]

theorem occCoverage_unknown {kw : Kwargs} {occmap : List (List ℕ)} {ye xe : List ℚ}
    (h1 : pyLower kw.arena_shape ∉ shapes_square)
    (h2 : pyLower kw.arena_shape ∉ shapes_circle)
    (h3 : pyLower kw.arena_shape ∉ shapes_linear) :
    occCoverage kw occmap ye xe
      = .error (.notImplementedError ("Arena shape " ++ kw.arena_shape ++ " not understood")) := by
  unfold occCoverage
  rw [if_neg h1, if_neg h2, if_neg h3]

/-- Claim C6, amended: with a linear shape tag `spatial_occupancy` never
returns a map; once validation, binning and frame-duration inference have
succeeded (`occPipeline` returns a result), the raised error is the
unsupported-geometry `NotImplementedError`, and an unrecognized tag
likewise raises a `NotImplementedError` whose message names the tag.  An
input that fails validation earlier reports that validation error instead
(see the counterexample). -/
theorem C6_linear_and_unknown_not_implemented :
    (∀ (t : List ℚ) (p : List (List ℚ)) (s : NpArr) (kw : Kwargs) (out : OccOut),
        pyLower kw.arena_shape ∈ shapes_linear →
        spatial_occupancy t p s kw ≠ .ok out) ∧
    (∀ (t : List ℚ) (p : List (List ℚ)) (s : NpArr) (kw : Kwargs)
        (hist : List (List ℕ)) (ye xe : List ℚ) (fd : ℚ),
        pyLower kw.arena_shape ∈ shapes_linear →
        occPipeline t p s kw = .ok (hist, ye, xe, fd) →
        spatial_occupancy t p s kw
          = .error (.notImplementedError "Spatial Occupancy does not currently support linear arenas")) ∧
    (∀ (t : List ℚ) (p : List (List ℚ)) (s : NpArr) (kw : Kwargs)
        (hist : List (List ℕ)) (ye xe : List ℚ) (fd : ℚ),
        pyLower kw.arena_shape ∉ shapes_square →
        pyLower kw.arena_shape ∉ shapes_circle →
        pyLower kw.arena_shape ∉ shapes_linear →
        occPipeline t p s kw = .ok (hist, ye, xe, fd) →
        spatial_occupancy t p s kw
          = .error (.notImplementedError ("Arena shape " ++ kw.arena_shape ++ " not understood"))) := by
  refine ⟨?_, ?_, ?_⟩
  · intro t p s kw out hs h
    obtain ⟨hist, ye, xe, fd, hpipe, hcov, hrest⟩ := spatial_occupancy_ok_elim h
    rw [occCoverage_linear hs] at hcov
    exact Except.noConfusion hcov
  · intro t p s kw hist ye xe fd hs hpipe
    unfold spatial_occupancy
    rw [hpipe]
    dsimp only
    rw [occCoverage_linear hs]
  · intro t p s kw hist ye xe fd h1 h2 h3 hpipe
    unfold spatial_occupancy
    rw [hpipe]
    dsimp only
    rw [occCoverage_unknown h1 h2 h3]

/-- Claim C6, amended, witness: a concrete linear-tag run and a concrete
unrecognized-tag run, with the pipeline hypothesis discharged by
evaluation. -/
theorem C6_linear_and_unknown_not_implemented_witness :
    occPipeline [0, 1, 2] [[0, 1, 2], [0, 1, 2]] (NpArr.d1 [1, 1, 1])
        { arena_size := some (.scalar 5), arena_shape := "Linear" }
      = .ok ([[1, 0], [0, 1]], [0, 1, 2], [0, 1, 2], 1) ∧
    spatial_occupancy [0, 1, 2] [[0, 1, 2], [0, 1, 2]] (NpArr.d1 [1, 1, 1])
        { arena_size := some (.scalar 5), arena_shape := "Linear" }
      = .error (.notImplementedError "Spatial Occupancy does not currently support linear arenas") ∧
    spatial_occupancy [0, 1, 2] [[0, 1, 2], [0, 1, 2]] (NpArr.d1 [1, 1, 1])
        { arena_size := some (.scalar 5), arena_shape := "hexagon" }
      = .error (.notImplementedError "Arena shape hexagon not understood") := by
  refine ⟨by decide, ?_, ?_⟩
  · exact C6_linear_and_unknown_not_implemented.2.1 [0, 1, 2] [[0, 1, 2], [0, 1, 2]]
      (NpArr.d1 [1, 1, 1]) { arena_size := some (.scalar 5), arena_shape := "Linear" }
      [[1, 0], [0, 1]] [0, 1, 2] [0, 1, 2] 1 (by decide) (by decide)
  · exact C6_linear_and_unknown_not_implemented.2.2 [0, 1, 2] [[0, 1, 2], [0, 1, 2]]
      (NpArr.d1 [1, 1, 1]) { arena_size := some (.scalar 5), arena_shape := "hexagon" }
      [[1, 0], [0, 1]] [0, 1, 2] [0, 1, 2] 1 (by decide) (by decide) (by decide) (by decide)

/-- Claim C7: a speed array that is not 1-d, or whose length differs from
the number of position samples, raises the invalid-shape `ValueError`
(with the source's two distinct messages), and a configuration without
`arena_size` raises the missing-configuration `KeyError`; in each case the
function returns the raised error and no output. -/
theorem C7_validation_errors :
    (∀ (t : List ℚ) (p : List (List ℚ)) (s : NpArr) (kw : Kwargs),
        (p.length = 1 ∨ p.length = 2) → s.ndim ≠ 1 →
        spatial_occupancy t p s kw
          = .error (.valueError "Speed array has the wrong number of columns")) ∧
    (∀ (t : List ℚ) (p : List (List ℚ)) (s : NpArr) (kw : Kwargs),
        (p.length = 1 ∨ p.length = 2) → s.ndim = 1 → s.size ≠ (p.headD []).length →
        spatial_occupancy t p s kw
          = .error (.valueError "Speed array does not have the same number of samples as Positions")) ∧
    (∀ (t : List ℚ) (p : List (List ℚ)) (s : NpArr) (kw : Kwargs),
        (p.length = 1 ∨ p.length = 2) → s.ndim = 1 → s.size = (p.headD []).length →
        kw.arena_size = none →
        spatial_occupancy t p s kw
          = .error (.keyError "Arena dimensions not provided. Please provide dimensions using keyword arena_size.")) := by
  refine ⟨?_, ?_, ?_⟩
  · intro t p s kw hd hnd
    have hp : occPipeline t p s kw
        = .error (.valueError "Speed array has the wrong number of columns") := by
      simp only [occPipeline]
      rw [if_neg (not_not_intro hd), if_pos hnd]
    simp [spatial_occupancy, hp]
  · intro t p s kw hd hnd hsz
    have hp : occPipeline t p s kw
        = .error (.valueError "Speed array does not have the same number of samples as Positions") := by
      simp only [occPipeline]
      rw [if_neg (not_not_intro hd), if_neg (not_not_intro hnd), if_pos hsz]
    simp [spatial_occupancy, hp]
  · intro t p s kw hd hnd hsz ha
    have hp : occPipeline t p s kw
        = .error (.keyError "Arena dimensions not provided. Please provide dimensions using keyword arena_size.") := by
      simp only [occPipeline]
      rw [if_neg (not_not_intro hd), if_neg (not_not_intro hnd), if_neg (not_not_intro hsz),
        if_pos (by simp [ha])]
    simp [spatial_occupancy, hp]

/-- Claim C7, witness: the three validation failures at concrete inputs. -/
theorem C7_validation_errors_witness :
    spatial_occupancy [0, 1] [[1, 2]] (NpArr.d2 [[1, 1]]) { arena_size := some (.scalar 10) }
      = .error (.valueError "Speed array has the wrong number of columns") ∧
    spatial_occupancy [0, 1] [[1, 2]] (NpArr.d1 [1]) { arena_size := some (.scalar 10) }
      = .error (.valueError "Speed array does not have the same number of samples as Positions") ∧
    spatial_occupancy [0, 1] [[1, 2]] (NpArr.d1 [1, 1]) { }
      = .error (.keyError "Arena dimensions not provided. Please provide dimensions using keyword arena_size.") := by
  refine ⟨?_, ?_, ?_⟩
  · exact C7_validation_errors.1 [0, 1] [[1, 2]] (NpArr.d2 [[1, 1]])
      { arena_size := some (.scalar 10) } (by decide) (by decide)
  · exact C7_validation_errors.2.1 [0, 1] [[1, 2]] (NpArr.d1 [1])
      { arena_size := some (.scalar 10) } (by decide) (by decide) (by decide)
  · exact C7_validation_errors.2.2 [0, 1] [[1, 2]] (NpArr.d1 [1, 1]) { } (by decide)
      (by decide) (by decide) (by decide)

/-- Claim C10: a multi-element `np.ndarray` passes the explicit
`type(limits)` check, but the later `limits == None` comparison is
element-wise and its truth value is ambiguous, so `accumulatespatial`
raises (in both the 1-d and 2-d branches) instead of returning a
histogram. -/
theorem C10_ndarray_limits_ambiguous_truth :
    ∀ (pos : List (List ℚ)) (kw : Kwargs) (xs : List ℚ) (sx sy : ℚ) (is2d : Bool),
      kw.limits = .pyndarray xs → 2 ≤ xs.length →
      (pos.length = 1 ∨ pos.length = 2) →
      validatekeyword__arena_size kw.arena_size pos.length = .ok (sx, sy, is2d) →
      accumulatespatial pos kw
        = .error (.valueError "The truth value of an array with more than one element is ambiguous. Use a.any() or a.all()") := by
  intro pos kw xs sx sy is2d hlim hlen hd hval
  cases is2d <;>
    simp [accumulatespatial, hval, hlim, limitsTypeOk, not_not_intro hd,
      deriveLimits1d, deriveLimits2d, limitsIsNone, hlen]

/-- Claim C10, witness. -/
theorem C10_ndarray_limits_ambiguous_truth_witness :
    accumulatespatial [[1, 2]] { arena_size := some (.scalar 10), limits := .pyndarray [0, 10] }
      = .error (.valueError "The truth value of an array with more than one element is ambiguous. Use a.any() or a.all()") :=
  C10_ndarray_limits_ambiguous_truth [[1, 2]]
    { arena_size := some (.scalar 10), limits := .pyndarray [0, 10] }
    [0, 10] 10 10 false (by decide) (by decide) (by decide) (by decide)

theorem fixRange_cases {lo hi a b : ℚ} (h : fixRange lo hi = .ok (a, b)) :
    (a = lo ∧ b = hi ∧ lo < hi) ∨ (lo = hi ∧ a = lo - 1/2 ∧ b = hi + 1/2) := by
  unfold fixRange at h
  split at h
  · exact Except.noConfusion h
  split at h
  · rename_i heq
    injection h with h
    injection h with h1 h2
    exact Or.inr ⟨heq, h1.symm, h2.symm⟩
  · rename_i hle heq
    injection h with h
    injection h with h1 h2
    exact Or.inl ⟨h1.symm, h2.symm, lt_of_le_of_ne (not_lt.mp hle) heq⟩

theorem fixRange_ok_lt {lo hi a b : ℚ} (h : fixRange lo hi = .ok (a, b)) : a < b := by
  rcases fixRange_cases h with ⟨rfl, rfl, hlt⟩ | ⟨heq, rfl, rfl⟩
  · exact hlt
  · linarith

theorem edges1d_length (lo hi : ℚ) (n : ℕ) : (edges1d lo hi n).length = n + 1 := by
  simp [edges1d]

theorem edges1d_chain {a b : ℚ} (hab : a < b) (n : ℕ) :
    List.Chain' (· < ·) (edges1d a b n) := by
  unfold edges1d
  rcases Nat.eq_zero_or_pos n with rfl | hn
  · simp
  · rw [List.chain'_map, List.chain'_range_succ]
    intro m hm
    have hba : (0 : ℚ) < b - a := by linarith
    have hnq : (0 : ℚ) < (n : ℚ) := by exact_mod_cast hn
    have hstep : (b - a) * (m : ℚ) / n < (b - a) * ((m : ℚ) + 1) / n := by
      rw [div_lt_div_iff_of_pos_right hnq]
      nlinarith
    push_cast
    linarith

theorem histogram1d_ok_elim {xs : List ℚ} {n : ℕ} {lo hi : ℚ} {h : List ℕ} {e : List ℚ}
    (hh : histogram1d xs n lo hi = .ok (h, e)) :
    n ≠ 0 ∧ ∃ a b, fixRange lo hi = .ok (a, b) ∧ a < b ∧
      h = ((List.range n).map fun i => (xs.filter fun v => binIndex a b n v == some i).length) ∧
      e = edges1d a b n := by
  unfold histogram1d at hh
  split at hh
  · exact Except.noConfusion hh
  rename_i a b hfix
  split at hh
  · exact Except.noConfusion hh
  rename_i hn
  injection hh with hh
  injection hh with h1 h2
  exact ⟨hn, a, b, hfix, fixRange_ok_lt hfix, h1.symm, h2.symm⟩

theorem histogram2d_ok_elim {x y : List ℚ} {nx ny : ℕ} {xlo xhi ylo yhi : ℚ}
    {h : List (List ℕ)} {xe ye : List ℚ}
    (hh : histogram2d x y nx ny xlo xhi ylo yhi = .ok (h, xe, ye)) :
    nx ≠ 0 ∧ ny ≠ 0 ∧ ∃ ax bx ay b2,
      fixRange xlo xhi = .ok (ax, bx) ∧ fixRange ylo yhi = .ok (ay, b2) ∧
      ax < bx ∧ ay < b2 ∧
      h = mkMat nx ny (fun ix iy =>
            ((x.zip y).filter fun p =>
              binIndex ax bx nx p.1 == some ix && binIndex ay b2 ny p.2 == some iy).length) ∧
      xe = edges1d ax bx nx ∧ ye = edges1d ay b2 ny := by
  unfold histogram2d at hh
  split at hh
  · exact Except.noConfusion hh
  rename_i ax bx hfx
  split at hh
  · exact Except.noConfusion hh
  rename_i hnx
  split at hh
  · exact Except.noConfusion hh
  rename_i ay b2 hfy
  split at hh
  · exact Except.noConfusion hh
  rename_i hny
  injection hh with hh
  injection hh with h1 hh
  injection hh with h2 h3
  exact ⟨hnx, hny, ax, bx, ay, b2, hfx, hfy, fixRange_ok_lt hfx, fixRange_ok_lt hfy,
    h1.symm, h2.symm, h3.symm⟩

theorem accumulatespatial_ok_one_elim {pos : List (List ℚ)} {kw : Kwargs} {h : List ℕ}
    {e : List ℚ} {sx sy : ℚ} {is2d : Bool}
    (hval : validatekeyword__arena_size kw.arena_size pos.length = .ok (sx, sy, is2d))
    (hacc : accumulatespatial pos kw = .ok (.one h e)) :
    is2d = false ∧ ∃ lo hi,
      deriveLimits1d (pos.headD []) kw.limits = .ok (lo, hi) ∧
      histogram1d (pos.headD []) (Nat.ceil (sx / kw.bin_width)) lo hi = .ok (h, e) := by
  simp only [accumulatespatial, hval] at hacc
  by_cases hdim : ¬(pos.length = 1 ∨ pos.length = 2)
  · rw [if_pos hdim] at hacc; exact Except.noConfusion hacc
  rw [if_neg hdim] at hacc
  by_cases hty : limitsTypeOk kw.limits = false
  · rw [if_pos hty] at hacc; exact Except.noConfusion hacc
  rw [if_neg hty] at hacc
  cases is2d with
  | true =>
    exfalso
    rw [if_pos rfl] at hacc
    repeat' split at hacc
    all_goals simp_all
  | false =>
    rw [if_neg (by decide)] at hacc
    refine ⟨rfl, ?_⟩
    split at hacc
    · exact Except.noConfusion hacc
    rename_i lo hi hder
    split at hacc
    · exact Except.noConfusion hacc
    rename_i hist edges hhist
    injection hacc with hacc
    injection hacc with h1 h2
    exact ⟨lo, hi, hder, by rw [h1, h2] at hhist; exact hhist⟩

theorem accumulatespatial_ok_two_elim {pos : List (List ℚ)} {kw : Kwargs}
    {h : List (List ℕ)} {ye xe : List ℚ} {sx sy : ℚ} {is2d : Bool}
    (hval : validatekeyword__arena_size kw.arena_size pos.length = .ok (sx, sy, is2d))
    (hacc : accumulatespatial pos kw = .ok (.two h ye xe)) :
    is2d = true ∧ ∃ xlo xhi ylo yhi hraw,
      deriveLimits2d (pos.headD []) (pos.getD 1 []) kw.limits = .ok (xlo, xhi, ylo, yhi) ∧
      (let pairs := ((pos.headD []).zip (pos.getD 1 [])).filter fun p =>
          decide (xlo ≤ p.1 ∧ p.1 < xhi) && decide (ylo ≤ p.2 ∧ p.2 < yhi)
       histogram2d (pairs.map Prod.fst) (pairs.map Prod.snd)
          (Nat.ceil (sx / kw.bin_width)) (Nat.ceil (sy / kw.bin_width))
          xlo xhi ylo yhi = .ok (hraw, xe, ye)) ∧
      h = matTranspose hraw := by
  simp only [accumulatespatial, hval] at hacc
  by_cases hdim : ¬(pos.length = 1 ∨ pos.length = 2)
  · rw [if_pos hdim] at hacc; exact Except.noConfusion hacc
  rw [if_neg hdim] at hacc
  by_cases hty : limitsTypeOk kw.limits = false
  · rw [if_pos hty] at hacc; exact Except.noConfusion hacc
  rw [if_neg hty] at hacc
  cases is2d with
  | false =>
    exfalso
    rw [if_neg (by decide)] at hacc
    repeat' split at hacc
    all_goals simp_all
  | true =>
    rw [if_pos rfl] at hacc
    refine ⟨rfl, ?_⟩
    split at hacc
    · exact Except.noConfusion hacc
    rename_i xlo xhi ylo yhi hder
    split at hacc
    · exact Except.noConfusion hacc
    rename_i hraw xedges yedges hhist
    injection hacc with hacc
    injection hacc with h1 h2 h3
    refine ⟨xlo, xhi, ylo, yhi, hraw, hder, ?_, h1.symm⟩
    rw [h2, h3] at hhist
    exact hhist

/-- Claim C8: for every successful call of the Spatial Accumulator, the bin
count on each axis is `ceil(arena_extent / bin_width)` and each returned
edge array is strictly increasing with length that bin count plus one
(the arena-size validator hypothesis names the per-axis extents). -/
theorem C8_bin_counts_and_edges :
    ∀ (pos : List (List ℚ)) (kw : Kwargs) (sx sy : ℚ) (is2d : Bool),
      validatekeyword__arena_size kw.arena_size pos.length = .ok (sx, sy, is2d) →
      (∀ h e, accumulatespatial pos kw = .ok (.one h e) →
          e.length = Nat.ceil (sx / kw.bin_width) + 1 ∧ List.Chain' (· < ·) e) ∧
      (∀ h ye xe, accumulatespatial pos kw = .ok (.two h ye xe) →
          xe.length = Nat.ceil (sx / kw.bin_width) + 1 ∧
          ye.length = Nat.ceil (sy / kw.bin_width) + 1 ∧
          List.Chain' (· < ·) xe ∧ List.Chain' (· < ·) ye) := by
  intro pos kw sx sy is2d hval
  constructor
  · intro h e hacc
    obtain ⟨his, lo, hi, hder, hhist⟩ := accumulatespatial_ok_one_elim hval hacc
    obtain ⟨hn, a, b, hfix, hab, hcounts, hedges⟩ := histogram1d_ok_elim hhist
    subst hedges
    exact ⟨edges1d_length a b _, edges1d_chain hab _⟩
  · intro h ye xe hacc
    obtain ⟨his, xlo, xhi, ylo, yhi, hraw, hder, hhist, htrans⟩ :=
      accumulatespatial_ok_two_elim hval hacc
    obtain ⟨hnx, hny, ax, bx, ay, b2, hfx, hfy, habx, haby, hcounts, hxe, hye⟩ :=
      histogram2d_ok_elim hhist
    subst hxe
    subst hye
    exact ⟨edges1d_length ax bx _, edges1d_length ay b2 _,
      edges1d_chain habx _, edges1d_chain haby _⟩

/-- Claim C8, witness: a rectangular arena 4 wide and 5 tall with bin width
2.5 gives 2 x-bins and 2 y-bins, with 3 strictly increasing edges each. -/
theorem C8_bin_counts_and_edges_witness :
    accumulatespatial [[0, 1, 3], [0, 2, 4]]
        { arena_size := some (.pair 4 5), limits := .pytuple [0, 4, 0, 5] }
      = .ok (.two [[2, 0], [0, 1]] [0, 5/2, 5] [0, 2, 4]) ∧
    ([0, 2, 4] : List ℚ).length = Nat.ceil ((4 : ℚ) / (5/2)) + 1 ∧
    ([0, 5/2, 5] : List ℚ).length = Nat.ceil ((5 : ℚ) / (5/2)) + 1 ∧
    List.Chain' (· < ·) ([0, 2, 4] : List ℚ) ∧
    List.Chain' (· < ·) ([0, 5/2, 5] : List ℚ) := by
  refine ⟨by decide, ?_⟩
  exact (C8_bin_counts_and_edges [[0, 1, 3], [0, 2, 4]]
      { arena_size := some (.pair 4 5), limits := .pytuple [0, 4, 0, 5] }
      4 5 true (by decide)).2 [[2, 0], [0, 1]] [0, 5/2, 5] [0, 2, 4] (by decide)

theorem list_range_map_sum {M : Type} [AddCommMonoid M] (g : ℕ → M) (n : ℕ) :
    ((List.range n).map g).sum = ∑ i in Finset.range n, g i := by
  induction n with
  | zero => simp
  | succ m ih =>
      rw [List.range_succ, List.map_append, List.sum_append, Finset.sum_range_succ, ih]
      simp

theorem binIndex_lt {a b : ℚ} {n : ℕ} (hn : n ≠ 0) {v : ℚ} {j : ℕ}
    (h : binIndex a b n v = some j) : j < n := by
  unfold binIndex at h
  split at h
  · split at h
    · injection h with h
      omega
    · injection h with h
      have hmin : min (n - 1) (Int.toNat ⌊(v - a) * n / (b - a)⌋) ≤ n - 1 := Nat.min_le_left _ _
      omega
  · exact Option.noConfusion h

theorem binIndex_isSome (a b : ℚ) (n : ℕ) (v : ℚ) :
    (binIndex a b n v).isSome = decide (a ≤ v ∧ v ≤ b) := by
  unfold binIndex
  split
  · rename_i hcond
    split <;> simp [hcond]
  · rename_i hcond
    simp [hcond]

theorem sum_indicator_some {n j : ℕ} (hj : j < n) :
    (∑ i in Finset.range n, if (some j : Option ℕ) == some i then (1 : ℕ) else 0) = 1 := by
  have hcongr : ∀ i : ℕ, (if (some j : Option ℕ) == some i then (1 : ℕ) else 0)
      = if j = i then 1 else 0 := by
    intro i
    by_cases hji : j = i
    · subst hji; simp
    · simp [hji, Option.some.injEq]
  rw [Finset.sum_congr rfl fun i _ => hcongr i, Finset.sum_ite_eq]
  simp [Finset.mem_range, hj]

theorem sum_counts_eq {α : Type} (f : α → Option ℕ) (n : ℕ) (xs : List α)
    (hb : ∀ j, (∃ v ∈ xs, f v = some j) → j < n) :
    (∑ i in Finset.range n, (xs.filter fun v => f v == some i).length)
      = (xs.filter fun v => (f v).isSome).length := by
  induction xs with
  | nil => simp
  | cons a l ih =>
      have hb' : ∀ j, (∃ v ∈ l, f v = some j) → j < n := by
        intro j ⟨v, hv, hfv⟩
        exact hb j ⟨v, List.mem_cons_of_mem a hv, hfv⟩
      have hsum : ∀ i : ℕ, ((a :: l).filter fun v => f v == some i).length
          = (if f a == some i then 1 else 0) + (l.filter fun v => f v == some i).length := by
        intro i
        rw [List.filter_cons]
        by_cases hfa : (f a == some i) = true
        · simp [hfa, Nat.add_comm]
        · simp [hfa]
      rw [Finset.sum_congr rfl fun i _ => hsum i, Finset.sum_add_distrib, ih hb',
        List.filter_cons]
      rcases hfa : f a with _ | j
      · simp [hfa]
      · have hj := hb j ⟨a, List.mem_cons_self a l, hfa⟩
        rw [sum_indicator_some hj]
        simp [Nat.add_comm]

theorem hist_counts_sum {a b : ℚ} {n : ℕ} (hn : n ≠ 0) (xs : List ℚ) :
    (((List.range n).map fun i => (xs.filter fun v => binIndex a b n v == some i).length).sum)
      = (xs.filter fun v => decide (a ≤ v ∧ v ≤ b)).length := by
  rw [list_range_map_sum,
    sum_counts_eq (fun v => binIndex a b n v) n xs
      (fun j ⟨v, _, hj⟩ => binIndex_lt hn hj)]
  congr 1
  apply List.filter_congr
  intro v _
  exact binIndex_isSome a b n v

theorem getD_map_range {β : Type} (g : ℕ → β) {c j : ℕ} (hj : j < c) (d : β) :
    (((List.range c).map g).getD j d) = g j := by
  rw [List.getD_eq_getElem?_getD, List.getElem?_map, List.getElem?_range hj]
  rfl

theorem matTranspose_mkMat {r : ℕ} (hr : r ≠ 0) (c : ℕ) (f : ℕ → ℕ → ℕ) :
    matTranspose (mkMat r c f) = mkMat c r fun j i => f i j := by
  obtain ⟨r2, rfl⟩ := Nat.exists_eq_succ_of_ne_zero hr
  have hhead : (mkMat (r2 + 1) c f).headD [] = (List.range c).map (f 0) := by
    unfold mkMat
    rw [List.range_succ_eq_map, List.map_cons, List.headD_cons]
  unfold matTranspose
  rw [hhead, List.length_map, List.length_range]
  unfold mkMat
  apply List.map_congr_left
  intro j hj
  rw [List.map_map]
  apply List.map_congr_left
  intro i hi
  simp only [Function.comp_apply]
  exact getD_map_range (f i) (List.mem_range.mp hj) 0

theorem matSum_mkMat (r c : ℕ) (f : ℕ → ℕ → ℕ) :
    matSum (mkMat r c f) = ∑ i in Finset.range r, ∑ j in Finset.range c, f i j := by
  unfold matSum mkMat
  rw [List.map_map, list_range_map_sum]
  apply Finset.sum_congr rfl
  intro i _
  simp only [Function.comp_apply]
  exact list_range_map_sum (f i) c

theorem zip_map_fst_snd {α β : Type} : ∀ l : List (α × β), (l.map Prod.fst).zip (l.map Prod.snd) = l
  | [] => rfl
  | p :: t => by rw [List.map_cons, List.map_cons, List.zip_cons_cons, zip_map_fst_snd t]

theorem deriveLimits1d_tuple (x : List ℚ) (l0 l1 : ℚ) :
    deriveLimits1d x (.pytuple [l0, l1]) = .ok (l0, l1) := by
  simp [deriveLimits1d, limitsIsNone, limitsElems]

theorem deriveLimits2d_tuple (x y : List ℚ) (x0 x1 y0 y1 : ℚ) :
    deriveLimits2d x y (.pytuple [x0, x1, y0, y1]) = .ok (x0, x1, y0, y1) := by
  simp [deriveLimits2d, limitsIsNone, limitsElems]

theorem fixRange_of_lt {lo hi : ℚ} (h : lo < hi) : fixRange lo hi = .ok (lo, hi) := by
  unfold fixRange
  rw [if_neg (not_lt.mpr h.le), if_neg h.ne]

/-- Claim C9, amended: with explicit limits, in the 2-d case an observation
contributes to the histogram exactly when every coordinate lies in the
half-open interval `[min, max)` of its axis; in the 1-d case, however, the
histogram is taken over the unfiltered array, so an observation contributes
exactly when its coordinate lies in the closed interval `[min, max]` — a
sample exactly at the upper limit is counted in the last bin. -/
theorem C9_binning_interval_conventions :
    (∀ (x : List ℚ) (kw : Kwargs) (l0 l1 : ℚ) (h : List ℕ) (e : List ℚ)
        (sx sy : ℚ) (is2d : Bool),
        validatekeyword__arena_size kw.arena_size 1 = .ok (sx, sy, is2d) →
        kw.limits = .pytuple [l0, l1] → l0 < l1 →
        accumulatespatial [x] kw = .ok (.one h e) →
        h.sum = (x.filter fun v => decide (l0 ≤ v ∧ v ≤ l1)).length) ∧
    (∀ (x y : List ℚ) (kw : Kwargs) (x0 x1 y0 y1 : ℚ) (h : List (List ℕ))
        (ye xe : List ℚ) (sx sy : ℚ) (is2d : Bool),
        validatekeyword__arena_size kw.arena_size 2 = .ok (sx, sy, is2d) →
        kw.limits = .pytuple [x0, x1, y0, y1] →
        accumulatespatial [x, y] kw = .ok (.two h ye xe) →
        matSum h = ((x.zip y).filter fun p =>
            decide (x0 ≤ p.1 ∧ p.1 < x1) && decide (y0 ≤ p.2 ∧ p.2 < y1)).length) := by
  constructor
  · intro x kw l0 l1 h e sx sy is2d hval hlim hlt hacc
    obtain ⟨his, lo, hi, hder, hhist⟩ := accumulatespatial_ok_one_elim hval hacc
    rw [hlim, deriveLimits1d_tuple] at hder
    injection hder with hder
    injection hder with g1 g2
    subst g1
    subst g2
    obtain ⟨hn, a, b, hfix, hab, hcounts, hedges⟩ := histogram1d_ok_elim hhist
    rw [fixRange_of_lt hlt] at hfix
    injection hfix with hfix
    injection hfix with g1 g2
    subst g1
    subst g2
    rw [hcounts]
    exact hist_counts_sum hn x
  · intro x y kw x0 x1 y0 y1 h ye xe sx sy is2d hval hlim hacc
    obtain ⟨his, xlo, xhi, ylo, yhi, hraw, hder, hhist, htrans⟩ :=
      accumulatespatial_ok_two_elim hval hacc
    rw [hlim, deriveLimits2d_tuple] at hder
    injection hder with hder
    injection hder with g1 hder
    injection hder with g2 hder
    injection hder with g3 g4
    subst g1
    subst g2
    subst g3
    subst g4
    simp only at hhist
    obtain ⟨hnx, hny, ax, bx, ay, b2, hfx, hfy, habx, haby, hcounts, hxe, hye⟩ :=
      histogram2d_ok_elim hhist
    simp only [zip_map_fst_snd] at hcounts
    have hmemx : ∀ p ∈ ((x.zip y).filter fun p =>
        decide (x0 ≤ p.1 ∧ p.1 < x1) && decide (y0 ≤ p.2 ∧ p.2 < y1)),
        (binIndex ax bx (Nat.ceil (sx / kw.bin_width)) p.1).isSome = true := by
      intro p hp
      obtain ⟨hmem, hcond⟩ := List.mem_filter.mp hp
      rw [Bool.and_eq_true, decide_eq_true_eq, decide_eq_true_eq] at hcond
      obtain ⟨⟨hx0, hx1⟩, hy0, hy1⟩ := hcond
      rcases fixRange_cases hfx with ⟨rfl, rfl, hxx⟩ | ⟨heq, h1, h2⟩
      · rw [binIndex_isSome]
        exact decide_eq_true ⟨hx0, le_of_lt hx1⟩
      · exfalso
        rw [heq] at hx0
        linarith
    have hmemy : ∀ p ∈ ((x.zip y).filter fun p =>
        decide (x0 ≤ p.1 ∧ p.1 < x1) && decide (y0 ≤ p.2 ∧ p.2 < y1)),
        (binIndex ay b2 (Nat.ceil (sy / kw.bin_width)) p.2).isSome = true := by
      intro p hp
      obtain ⟨hmem, hcond⟩ := List.mem_filter.mp hp
      rw [Bool.and_eq_true, decide_eq_true_eq, decide_eq_true_eq] at hcond
      obtain ⟨⟨hx0, hx1⟩, hy0, hy1⟩ := hcond
      rcases fixRange_cases hfy with ⟨rfl, rfl, hyy⟩ | ⟨heq, h1, h2⟩
      · rw [binIndex_isSome]
        exact decide_eq_true ⟨hy0, le_of_lt hy1⟩
      · exfalso
        rw [heq] at hy0
        linarith
    rw [htrans, hcounts, matTranspose_mkMat hnx, matSum_mkMat]
    have hsplit : ∀ iy ix : ℕ,
        (((x.zip y).filter fun p =>
            decide (x0 ≤ p.1 ∧ p.1 < x1) && decide (y0 ≤ p.2 ∧ p.2 < y1)).filter fun p =>
          binIndex ax bx (Nat.ceil (sx / kw.bin_width)) p.1 == some ix &&
          binIndex ay b2 (Nat.ceil (sy / kw.bin_width)) p.2 == some iy)
        = ((((x.zip y).filter fun p =>
            decide (x0 ≤ p.1 ∧ p.1 < x1) && decide (y0 ≤ p.2 ∧ p.2 < y1)).filter fun p =>
          binIndex ay b2 (Nat.ceil (sy / kw.bin_width)) p.2 == some iy).filter fun p =>
          binIndex ax bx (Nat.ceil (sx / kw.bin_width)) p.1 == some ix) := by
      intro iy ix
      exact (List.filter_filter _ _).symm
    calc (∑ iy in Finset.range (Nat.ceil (sy / kw.bin_width)),
            ∑ ix in Finset.range (Nat.ceil (sx / kw.bin_width)),
            (((x.zip y).filter fun p =>
                decide (x0 ≤ p.1 ∧ p.1 < x1) && decide (y0 ≤ p.2 ∧ p.2 < y1)).filter fun p =>
              binIndex ax bx (Nat.ceil (sx / kw.bin_width)) p.1 == some ix &&
              binIndex ay b2 (Nat.ceil (sy / kw.bin_width)) p.2 == some iy).length)
        = ∑ iy in Finset.range (Nat.ceil (sy / kw.bin_width)),
            (((x.zip y).filter fun p =>
                decide (x0 ≤ p.1 ∧ p.1 < x1) && decide (y0 ≤ p.2 ∧ p.2 < y1)).filter fun p =>
              binIndex ay b2 (Nat.ceil (sy / kw.bin_width)) p.2 == some iy).length := by
          apply Finset.sum_congr rfl
          intro iy _
          rw [Finset.sum_congr rfl fun ix _ => congrArg List.length (hsplit iy ix)]
          rw [sum_counts_eq (fun p => binIndex ax bx (Nat.ceil (sx / kw.bin_width)) p.1)
            (Nat.ceil (sx / kw.bin_width))
            (((x.zip y).filter fun p =>
                decide (x0 ≤ p.1 ∧ p.1 < x1) && decide (y0 ≤ p.2 ∧ p.2 < y1)).filter fun p =>
              binIndex ay b2 (Nat.ceil (sy / kw.bin_width)) p.2 == some iy)
            (by
              intro j hj
              obtain ⟨v, hv, hfv⟩ := hj
              exact binIndex_lt hnx hfv)]
          rw [List.filter_eq_self.mpr fun p hp => hmemx p (List.mem_of_mem_filter hp)]
      _ = (((x.zip y)).filter fun p =>
              decide (x0 ≤ p.1 ∧ p.1 < x1) && decide (y0 ≤ p.2 ∧ p.2 < y1)).length := by
          rw [sum_counts_eq (fun p => binIndex ay b2 (Nat.ceil (sy / kw.bin_width)) p.2)
            (Nat.ceil (sy / kw.bin_width))
            ((x.zip y).filter fun p =>
                decide (x0 ≤ p.1 ∧ p.1 < x1) && decide (y0 ≤ p.2 ∧ p.2 < y1))
            (by
              intro j hj
              obtain ⟨v, hv, hfv⟩ := hj
              exact binIndex_lt hny hfv)]
          rw [List.filter_eq_self.mpr hmemy]

/-- Claim C9, amended, witness: concrete 1-d and 2-d runs fed through the
theorem. -/
theorem C9_binning_interval_conventions_witness :
    accumulatespatial [[10]] { arena_size := some (.scalar 10), limits := .pytuple [0, 10] }
      = .ok (.one [0, 0, 0, 1] [0, 5/2, 5, 15/2, 10]) ∧
    ([0, 0, 0, 1] : List ℕ).sum
      = (([10] : List ℚ).filter fun v => decide ((0 : ℚ) ≤ v ∧ v ≤ 10)).length ∧
    accumulatespatial [[5], [10]]
        { arena_size := some (.scalar 10), limits := .pytuple [0, 10, 0, 10] }
      = .ok (.two [[0, 0, 0, 0], [0, 0, 0, 0], [0, 0, 0, 0], [0, 0, 0, 0]]
          [0, 5/2, 5, 15/2, 10] [0, 5/2, 5, 15/2, 10]) ∧
    matSum [[0, 0, 0, 0], [0, 0, 0, 0], [0, 0, 0, 0], [0, 0, 0, 0]]
      = ((([5] : List ℚ).zip ([10] : List ℚ)).filter fun p =>
          decide ((0 : ℚ) ≤ p.1 ∧ p.1 < 10) && decide ((0 : ℚ) ≤ p.2 ∧ p.2 < 10)).length := by
  refine ⟨by decide, ?_, by decide, ?_⟩
  · exact C9_binning_interval_conventions.1 [10]
      { arena_size := some (.scalar 10), limits := .pytuple [0, 10] } 0 10
      [0, 0, 0, 1] [0, 5/2, 5, 15/2, 10] 10 10 false
      (by decide) (by decide) (by decide) (by decide)
  · exact C9_binning_interval_conventions.2 [5] [10]
      { arena_size := some (.scalar 10), limits := .pytuple [0, 10, 0, 10] } 0 10 0 10
      [[0, 0, 0, 0], [0, 0, 0, 0], [0, 0, 0, 0], [0, 0, 0, 0]]
      [0, 5/2, 5, 15/2, 10] [0, 5/2, 5, 15/2, 10] 10 10 true
      (by decide) (by decide) (by decide)

/-- Claim C3, amended: with explicit limits, the 1-d branch computes its
histogram over the unfiltered coordinate array (the in-range mask is
computed and discarded), but the 2-d branch computes its histogram over the
in-range-filtered subset of the coordinate pairs. -/
theorem C3_histogram_input_arrays :
    (∀ (x : List ℚ) (kw : Kwargs) (l0 l1 : ℚ) (h : List ℕ) (e : List ℚ)
        (sx sy : ℚ) (is2d : Bool),
        validatekeyword__arena_size kw.arena_size 1 = .ok (sx, sy, is2d) →
        kw.limits = .pytuple [l0, l1] → l0 < l1 →
        accumulatespatial [x] kw = .ok (.one h e) →
        h = (List.range (Nat.ceil (sx / kw.bin_width))).map fun i =>
          (x.filter fun v =>
            binIndex l0 l1 (Nat.ceil (sx / kw.bin_width)) v == some i).length) ∧
    (∀ (x y : List ℚ) (kw : Kwargs) (x0 x1 y0 y1 : ℚ) (h : List (List ℕ))
        (ye xe : List ℚ) (sx sy : ℚ) (is2d : Bool),
        validatekeyword__arena_size kw.arena_size 2 = .ok (sx, sy, is2d) →
        kw.limits = .pytuple [x0, x1, y0, y1] → x0 < x1 → y0 < y1 →
        accumulatespatial [x, y] kw = .ok (.two h ye xe) →
        h = matTranspose (mkMat (Nat.ceil (sx / kw.bin_width)) (Nat.ceil (sy / kw.bin_width))
          fun ix iy =>
            (((x.zip y).filter fun p =>
                decide (x0 ≤ p.1 ∧ p.1 < x1) && decide (y0 ≤ p.2 ∧ p.2 < y1)).filter fun p =>
              binIndex x0 x1 (Nat.ceil (sx / kw.bin_width)) p.1 == some ix &&
              binIndex y0 y1 (Nat.ceil (sy / kw.bin_width)) p.2 == some iy).length)) := by
  constructor
  · intro x kw l0 l1 h e sx sy is2d hval hlim hlt hacc
    obtain ⟨his, lo, hi, hder, hhist⟩ := accumulatespatial_ok_one_elim hval hacc
    rw [hlim, deriveLimits1d_tuple] at hder
    injection hder with hder
    injection hder with g1 g2
    subst g1
    subst g2
    obtain ⟨hn, a, b, hfix, hab, hcounts, hedges⟩ := histogram1d_ok_elim hhist
    rw [fixRange_of_lt hlt] at hfix
    injection hfix with hfix
    injection hfix with g1 g2
    subst g1
    subst g2
    exact hcounts
  · intro x y kw x0 x1 y0 y1 h ye xe sx sy is2d hval hlim hltx hlty hacc
    obtain ⟨his, xlo, xhi, ylo, yhi, hraw, hder, hhist, htrans⟩ :=
      accumulatespatial_ok_two_elim hval hacc
    rw [hlim, deriveLimits2d_tuple] at hder
    injection hder with hder
    injection hder with g1 hder
    injection hder with g2 hder
    injection hder with g3 g4
    subst g1
    subst g2
    subst g3
    subst g4
    simp only at hhist
    obtain ⟨hnx, hny, ax, bx, ay, b2, hfx, hfy, habx, haby, hcounts, hxe, hye⟩ :=
      histogram2d_ok_elim hhist
    rw [fixRange_of_lt hltx] at hfx
    injection hfx with hfx
    injection hfx with g1 g2
    subst g1
    subst g2
    rw [fixRange_of_lt hlty] at hfy
    injection hfy with hfy
    injection hfy with g1 g2
    subst g1
    subst g2
    simp only [zip_map_fst_snd] at hcounts
    rw [htrans, hcounts]
    rfl

/-- Claim C3, amended, witness. -/
theorem C3_histogram_input_arrays_witness :
    accumulatespatial [[10]] { arena_size := some (.scalar 10), limits := .pytuple [0, 10] }
      = .ok (.one [0, 0, 0, 1] [0, 5/2, 5, 15/2, 10]) ∧
    ([0, 0, 0, 1] : List ℕ) = (List.range 4).map (fun i =>
      (([10] : List ℚ).filter fun v => binIndex 0 10 4 v == some i).length) ∧
    accumulatespatial [[5], [10]]
        { arena_size := some (.scalar 10), limits := .pytuple [0, 10, 0, 10] }
      = .ok (.two [[0, 0, 0, 0], [0, 0, 0, 0], [0, 0, 0, 0], [0, 0, 0, 0]]
          [0, 5/2, 5, 15/2, 10] [0, 5/2, 5, 15/2, 10]) ∧
    ([[0, 0, 0, 0], [0, 0, 0, 0], [0, 0, 0, 0], [0, 0, 0, 0]] : List (List ℕ))
      = matTranspose (mkMat 4 4 fun ix iy =>
          (((([5] : List ℚ).zip ([10] : List ℚ)).filter fun p =>
              decide ((0 : ℚ) ≤ p.1 ∧ p.1 < 10) && decide ((0 : ℚ) ≤ p.2 ∧ p.2 < 10)).filter fun p =>
            binIndex 0 10 4 p.1 == some ix && binIndex 0 10 4 p.2 == some iy).length) := by
  refine ⟨by decide, ?_, by decide, ?_⟩
  · exact C3_histogram_input_arrays.1 [10]
      { arena_size := some (.scalar 10), limits := .pytuple [0, 10] } 0 10
      [0, 0, 0, 1] [0, 5/2, 5, 15/2, 10] 10 10 false
      (by decide) (by decide) (by decide) (by decide)
  · exact C3_histogram_input_arrays.2 [5] [10]
      { arena_size := some (.scalar 10), limits := .pytuple [0, 10, 0, 10] } 0 10 0 10
      [[0, 0, 0, 0], [0, 0, 0, 0], [0, 0, 0, 0], [0, 0, 0, 0]]
      [0, 5/2, 5, 15/2, 10] [0, 5/2, 5, 15/2, 10] 10 10 true
      (by decide) (by decide) (by decide) (by decide) (by decide)
